import Mathlib

set_option maxRecDepth 10000

/-!
Shallow embedding of the repo-summarizer selection/truncation core
(`src/processor.py`) and the relevant control flow of `src/github.py`.

Modelling conventions:
- Python strings are `List Char`; Python paths are POSIX-style relative
  paths as produced by the GitHub tree API (no leading slash).
- `PurePosixPath.parts` is modelled for relative paths: split on '/',
  dropping empty and "." segments ("..") is kept, as pathlib does).
- Python regular expressions are translated to explicit decidable
  predicates; `$` without MULTILINE matches at the end of the string or
  just before a final newline, `.` does not match a newline, and `\w`
  is modelled as ASCII alphanumeric or underscore.
- `str.lower` is modelled by `Char.toLower` (identical on ASCII data,
  which is all the denylists and tier tables contain).
- Python integers are `Nat` where the source guarantees non-negativity
  (sizes) and `Int` where subtraction may go negative (the running
  budget in `filter_and_prioritize`).
- The comparison `last_newline > char_limit * 0.8` in `truncate_file`
  is evaluated by Python in floating point.  For the program's actual
  call site (`char_limit = 6000`, where `6000 * 0.8 == 4800.0` exactly)
  and for every limit small enough that the nearest-integer gap of
  `0.8 * limit` exceeds the rounding error, it agrees with the exact
  rational comparison, which we express over `Int` as
  `5 * last_newline > 4 * char_limit`.
- `list.sort(key=...)` is a stable sort by the key; any stable sort by a
  total key preorder computes the same list, and we use a stable
  insertion sort (`stableSortBy`).
-/

-- ---------------------------------------------------------------------------
-- Configuration constants (src/processor.py, lines 18-20)
-- ---------------------------------------------------------------------------

def CHAR_BUDGET : Nat := 70000

def MAX_FILE_CHARS : Nat := 6000

def TREE_MAX_ENTRIES : Nat := 500

-- ---------------------------------------------------------------------------
-- String / path helpers
-- ---------------------------------------------------------------------------

/-- Model of `str.lower`, restricted to the ASCII data the denylists contain. -/
def lowerStr (l : List Char) : List Char := l.map Char.toLower

/-- Split a character list on '/' (keeping empty segments). -/
def splitSlash : List Char → List (List Char)
  | [] => [[]]
  | c :: rest =>
    match splitSlash rest with
    | [] => [[]]
    | seg :: segs => if c = '/' then [] :: seg :: segs else (c :: seg) :: segs

/-- Model of `PurePosixPath(path).parts` for relative POSIX paths: empty and "."
segments are normalized away. -/
def pathParts (path : List Char) : List (List Char) :=
  (splitSlash path).filter (fun s => !s.isEmpty && !(s == ['.']))

/-- Model of `PurePosixPath(path).name`: the final component, except that a final
".." (or an empty part list) yields the empty name, as in pathlib. -/
def pathName (path : List Char) : List Char :=
  match (pathParts path).getLast? with
  | none => []
  | some s => if s == ['.', '.'] then [] else s

/-- Model of `str.rfind(target)` for a single-character needle: the highest index
of `target`, or `-1` when absent. -/
def rfindChar (target : Char) : List Char → Int
  | [] => -1
  | c :: rest =>
    let r := rfindChar target rest
    if 0 ≤ r then r + 1 else if c = target then 0 else -1

/-- Model of `PurePosixPath(path).suffix`: the extension of the final component,
taken from its last dot when that dot is neither leading nor trailing. -/
def pathSuffix (path : List Char) : List Char :=
  let name := pathName path
  let i := rfindChar '.' name
  if 0 < i ∧ i < (name.length : Int) - 1 then name.drop i.toNat else []

/-- Substring containment (`sub in s` / an unanchored `re.search` of a
literal). -/
def containsSub (sub : List Char) (l : List Char) : Bool :=
  l.tails.any (fun t => sub.isPrefixOf t)

/-- A literal regex tail anchored by `$` (no MULTILINE): the literal must
end the string, or end it just before one final newline. -/
def reSuffix (suf : List Char) (l : List Char) : Bool :=
  suf.isSuffixOf l || (l.getLast? == some '\n' && suf.isSuffixOf l.dropLast)

-- ---------------------------------------------------------------------------
-- Skip rules (src/processor.py, lines 26-66)
-- ---------------------------------------------------------------------------

def SKIP_DIRS : List (List Char) :=
  ["node_modules", "vendor", "dist", "build", ".git", "__pycache__",
   ".next", ".nuxt", "venv", ".venv", "env", ".env", "target",
   "coverage", ".nyc_output", "eggs", ".eggs", "*.egg-info",
   "htmlcov", ".tox", ".pytest_cache", ".mypy_cache", ".ruff_cache",
   "site-packages", "bower_components", "jspm_packages"].map (fun s => s.toList)

def SKIP_EXTENSIONS : List (List Char) :=
  [".png", ".jpg", ".jpeg", ".gif", ".svg", ".ico", ".webp", ".bmp", ".tiff",
   ".mp4", ".mp3", ".wav", ".ogg", ".mov", ".avi",
   ".woff", ".woff2", ".ttf", ".eot", ".otf",
   ".pdf", ".doc", ".docx", ".xls", ".xlsx", ".ppt", ".pptx",
   ".zip", ".tar", ".gz", ".bz2", ".7z", ".rar", ".xz",
   ".exe", ".dll", ".so", ".dylib", ".a", ".lib",
   ".pyc", ".pyo", ".class", ".jar", ".war",
   ".bin", ".dat", ".db", ".sqlite", ".sqlite3",
   ".lock"].map (fun s => s.toList)

def SKIP_FILENAMES : List (List Char) :=
  ["package-lock.json", "yarn.lock", "poetry.lock", "Pipfile.lock",
   "composer.lock", "Gemfile.lock", "cargo.lock", "pnpm-lock.yaml",
   "shrinkwrap.json", "npm-shrinkwrap.json",
   ".DS_Store", "Thumbs.db", ".gitkeep"].map (fun s => s.toList)

/-- Regex `\.min\.(js|css)$` (minified). -/
def patMinified (l : List Char) : Bool :=
  reSuffix (".min.js".toList) l || reSuffix (".min.css".toList) l

/-- Regex `\.bundle\.js$` (bundled). -/
def patBundled (l : List Char) : Bool := reSuffix (".bundle.js".toList) l

/-- Regex `\.(pb|pb2)\.go$` (protobuf generated Go). -/
def patPbGo (l : List Char) : Bool :=
  reSuffix (".pb.go".toList) l || reSuffix (".pb2.go".toList) l

/-- Python regex `\w` modelled as ASCII word character. -/
def isWordChar (c : Char) : Bool := c.isAlphanum || c == '_'

/-- Core of `\.generated\.\w+$` matching at the very end of `l`: a
nonempty trailing run of word characters preceded by ".generated.". -/
def genCore (l : List Char) : Bool :=
  let r := (l.reverse.takeWhile isWordChar).length
  decide (0 < r) && (".generated.".toList).isSuffixOf (l.take (l.length - r))

/-- Regex `\.generated\.\w+$` (explicitly generated). -/
def patGenerated (l : List Char) : Bool :=
  genCore l || (l.getLast? == some '\n' && genCore l.dropLast)

/-- Regex `_pb2\.py$` (protobuf python). -/
def patPb2Py (l : List Char) : Bool := reSuffix ("_pb2.py".toList) l

/-- Tail of the migrations regex after `migrations?/`: `\d+.*\.py$`
anchored at the end of the scanned string (a leading digit, an ".py"
suffix, and no newline in the `.*` region). -/
def migTail (u : List Char) : Bool :=
  match u with
  | [] => false
  | d :: rest =>
    d.isDigit && (".py".toList).isSuffixOf (d :: rest) &&
      (rest.take (rest.length - 3)).all (fun c => !(c == '\n'))

/-- Core of `migrations?/\d+.*\.py$` matching somewhere in `l` and
ending at the very end of `l`. -/
def migCore (l : List Char) : Bool :=
  l.tails.any (fun t =>
    (("migrations/".toList).isPrefixOf t && migTail (t.drop 11)) ||
    (("migration/".toList).isPrefixOf t && migTail (t.drop 10)))

/-- Regex `migrations?/\d+.*\.py$` (django/alembic migrations). -/
def patMigrations (l : List Char) : Bool :=
  migCore l || (l.getLast? == some '\n' && migCore l.dropLast)

/-- Regex `\.snap$` (jest snapshots). -/
def patSnap (l : List Char) : Bool := reSuffix (".snap".toList) l

/-- Regex `\.map$` (source maps). -/
def patSourceMap (l : List Char) : Bool := reSuffix (".map".toList) l

/-- Regex `test[_-]?fixtures?/` (test fixtures): one of the six literal
expansions occurs as a substring. -/
def patTestFixtures (l : List Char) : Bool :=
  ["testfixture/", "testfixtures/", "test_fixture/", "test_fixtures/",
   "test-fixture/", "test-fixtures/"].any (fun s => containsSub s.toList l)

/-- Tail of the fixtures regex after `fixtures?/`: `.*\.(json|yaml|yml)$`
anchored at the end of the scanned string. -/
def fixTail (u : List Char) : Bool :=
  [".json", ".yaml", ".yml"].any (fun e =>
    (e.toList).isSuffixOf u &&
      (u.take (u.length - e.toList.length)).all (fun c => !(c == '\n')))

/-- Core of `fixtures?/.*\.(json|yaml|yml)$` ending at the very end. -/
def fixCore (l : List Char) : Bool :=
  l.tails.any (fun t =>
    (("fixtures/".toList).isPrefixOf t && fixTail (t.drop 9)) ||
    (("fixture/".toList).isPrefixOf t && fixTail (t.drop 8)))

/-- Regex `fixtures?/.*\.(json|yaml|yml)$` (fixture data files). -/
def patFixtures (l : List Char) : Bool :=
  fixCore l || (l.getLast? == some '\n' && fixCore l.dropLast)

/-- The SKIP_PATTERNS list, in source order. -/
def SKIP_PATTERNS : List (List Char → Bool) :=
  [patMinified, patBundled, patPbGo, patGenerated, patPb2Py,
   patMigrations, patSnap, patSourceMap, patTestFixtures, patFixtures]

/-- Function `_should_skip` (src/processor.py, lines 97-117). -/
def _should_skip (path : List Char) : Bool :=
  let parts := pathParts path
  let name := pathName path
  let ext := lowerStr (pathSuffix path)
  parts.dropLast.any
      (fun part => SKIP_DIRS.contains (lowerStr part) ||
        (".egg-info".toList).isSuffixOf part)
    || SKIP_FILENAMES.contains name
    || SKIP_EXTENSIONS.contains ext
    || SKIP_PATTERNS.any (fun pat => pat path)

-- ---------------------------------------------------------------------------
-- Priority tiers (src/processor.py, lines 72-130)
-- ---------------------------------------------------------------------------

def TIER1_BASES : List (List Char) :=
  ["readme", "architecture", "overview", "contributing", "changelog",
   "design"].map (fun s => s.toList)

def TIER1_SUFFIXES : List (List Char) :=
  ["", ".md", ".rst", ".txt"].map (fun s => s.toList)

/-- Model of `TIER1_NAMES.match(name)`: the regex
`^(README|ARCHITECTURE|OVERVIEW|CONTRIBUTING|CHANGELOG|DESIGN)(\.md|\.rst|\.txt)?$`
with IGNORECASE, fully anchored (`$` also matches before one final
newline). -/
def TIER1_NAMES_match (name : List Char) : Bool :=
  let core := fun (n : List Char) =>
    TIER1_BASES.any (fun b => TIER1_SUFFIXES.any (fun s => lowerStr n == b ++ s))
  core name || (name.getLast? == some '\n' && core name.dropLast)

def TIER2_NAMES : List (List Char) :=
  ["package.json", "pyproject.toml", "setup.py", "setup.cfg",
   "Cargo.toml", "go.mod", "pom.xml", "build.gradle", "build.gradle.kts",
   "Gemfile", "composer.json", "mix.exs", "pubspec.yaml",
   "requirements.txt", "Pipfile",
   "Dockerfile", "docker-compose.yml", "docker-compose.yaml",
   ".env.example", ".env.sample"].map (fun s => s.toList)

def TIER3_BASES : List String :=
  ["main", "app", "server", "index", "cli", "__main__", "__init__"]

def TIER3_EXTS : List String :=
  ["py", "go", "js", "ts", "rb", "rs", "java", "cs", "cpp", "c"]

/-- One effective end of the search subject matches
`(^|/)(main|app|...)\.(py|go|...)$` when the lowered string ends with
`base.ext` at the start of the string or right after a '/'. -/
def tier3End (e : List Char) : Bool :=
  let le := lowerStr e
  TIER3_BASES.any (fun b => TIER3_EXTS.any (fun x =>
    let m := (b ++ "." ++ x).toList
    m.isSuffixOf le &&
      (decide (le.length = m.length) ||
        (le.drop (le.length - m.length - 1)).head? == some '/')))

/-- Model of `TIER3_ENTRY_PATTERNS.search(path)` (IGNORECASE, `$`-anchored). -/
def TIER3_ENTRY_PATTERNS_search (l : List Char) : Bool :=
  tier3End l || (l.getLast? == some '\n' && tier3End l.dropLast)

/-- Model of `TIER4_INFRA_PATTERNS.search(path)`: a case-insensitive unanchored
search for one of the literal alternatives. -/
def TIER4_INFRA_PATTERNS_search (l : List Char) : Bool :=
  [".github/workflows/", ".gitlab-ci", "makefile", "taskfile",
   "nginx.conf", "supervisord", "gunicorn", "uwsgi"].any
    (fun s => containsSub s.toList (lowerStr l))

/-- Function `_tier` (src/processor.py, lines 120-130). -/
def _tier (path : List Char) : Nat :=
  let name := pathName path
  if TIER1_NAMES_match name then 1
  else if TIER2_NAMES.contains name then 2
  else if TIER3_ENTRY_PATTERNS_search path then 3
  else if TIER4_INFRA_PATTERNS_search path then 4
  else 5

-- ---------------------------------------------------------------------------
-- Selection / budgeting (src/processor.py, lines 133-164)
-- ---------------------------------------------------------------------------

/-- One raw GitHub tree item, restricted to the fields the program reads:
`path`, `size` (absent for directory entries, read via `.get("size", 0)`),
and `type` ("blob" or "tree"). -/
structure TreeEntry where
  path : List Char
  size : Option Nat
  type : List Char
deriving DecidableEq

/-- A candidate triple `(path, size, tier)` as built by
`filter_and_prioritize`. -/
abbrev Cand := List Char × Nat × Nat

/-- The candidate-collection loop of `filter_and_prioritize`
(lines 141-146): every non-skipped item contributes
`(path, item.get("size", 0), _tier(path))`, in tree order. -/
def candidates (tree : List TreeEntry) : List Cand :=
  tree.filterMap (fun item =>
    if _should_skip item.path then none
    else some (item.path, item.size.getD 0, _tier item.path))

/-- The sort key comparison of `candidates.sort(key=lambda x: (x[2], x[1]))`:
lexicographic non-strict order on `(tier, size)`. -/
def candLe (a b : Cand) : Bool :=
  decide (a.2.2 < b.2.2) || (decide (a.2.2 = b.2.2) && decide (a.2.1 ≤ b.2.1))

/-- Stable insertion: `x` goes in front of the first element it compares
less-or-equal to, hence in front of later equal keys and behind earlier
ones. -/
def insertBy (le : α → α → Bool) (x : α) : List α → List α
  | [] => [x]
  | y :: ys => if le x y then x :: y :: ys else y :: insertBy le x ys

/-- Stable sort by a total preorder; extensionally equal to Python's
stable `list.sort(key=...)`. -/
def stableSortBy (le : α → α → Bool) (l : List α) : List α :=
  l.foldr (insertBy le) []

/-- The selection loop of `filter_and_prioritize` (lines 151-163): break
as soon as the budget is non-positive, include when the allotment fits
or the tier is at most 2, and charge the allotment on inclusion. -/
def selectLoop : List Cand → Int → List (List Char)
  | [], _ => []
  | (path, size, tier) :: rest, budget =>
    if budget ≤ 0 then []
    else
      let allotment : Int := min (size : Int) (MAX_FILE_CHARS : Int)
      if allotment ≤ budget ∨ tier ≤ 2 then
        path :: selectLoop rest (budget - allotment)
      else selectLoop rest budget

/-- The running budget after the loop has traversed the given candidates
(stays frozen once it is non-positive, mirroring the `break`). -/
def budgetAfter : List Cand → Int → Int
  | [], b => b
  | (_, size, tier) :: rest, b =>
    if b ≤ 0 then b
    else
      let allotment : Int := min (size : Int) (MAX_FILE_CHARS : Int)
      if allotment ≤ b ∨ tier ≤ 2 then budgetAfter rest (b - allotment)
      else budgetAfter rest b

/-- Function `filter_and_prioritize` (src/processor.py, lines 133-164). -/
def filter_and_prioritize (tree : List TreeEntry) : List (List Char) :=
  selectLoop (stableSortBy candLe (candidates tree)) (CHAR_BUDGET : Int)

-- ---------------------------------------------------------------------------
-- Content truncation (src/processor.py, lines 171-188)
-- ---------------------------------------------------------------------------

/-- The f-string annotation
`f"\n\n... [truncated: showing {lines_kept}/{lines_total} lines]"`. -/
def truncNote (lines_kept lines_total : Nat) : List Char :=
  ("\n\n... [truncated: showing ".toList) ++ (Nat.repr lines_kept).toList ++
    ("/".toList) ++ (Nat.repr lines_total).toList ++ (" lines]".toList)

/-- Function `truncate_file` (src/processor.py, lines 171-188).  The Python
comparison `last_newline > char_limit * 0.8` runs in floating point; it
coincides with the exact integer comparison `5 * last_newline >
4 * char_limit` at the program's call site (`char_limit = 6000`, where
`6000 * 0.8 == 4800.0` exactly) and for all limits whose fifths are not
perturbed past an integer by the rounding of 0.8. -/
def truncate_file (path : List Char) (content : List Char)
    (char_limit : Nat := MAX_FILE_CHARS) : List Char :=
  if content.length ≤ char_limit then content
  else
    let truncated := content.take char_limit
    let last_newline := rfindChar '\n' truncated
    let truncated :=
      if 4 * (char_limit : Int) < 5 * last_newline then
        truncated.take last_newline.toNat
      else truncated
    let lines_total := content.count '\n' + 1
    let lines_kept := truncated.count '\n' + 1
    truncated ++ truncNote lines_kept lines_total

-- ---------------------------------------------------------------------------
-- Context renderer (src/processor.py, lines 191-208)
-- ---------------------------------------------------------------------------

/-- One rendered block `f"### {path}\n```\n{content}\n```"` with the
content already truncated. -/
def renderBlock (pc : List Char × List Char) : List Char :=
  ("### ".toList) ++ pc.1 ++ ("\n```\n".toList) ++
    truncate_file pc.1 pc.2 MAX_FILE_CHARS ++ ("\n```".toList)

def OMITTED_MARKER : List Char :=
  "... [additional files omitted due to context budget]".toList

/-- The block-accumulation loop of `build_file_context`: append the
block, add its length to the running total, and once the total reaches
`CHAR_BUDGET` append the omission marker and stop. -/
def bfcBlocks : List (List Char × List Char) → Nat → List (List Char)
  | [], _ => []
  | pc :: rest, total =>
    let block := renderBlock pc
    if CHAR_BUDGET ≤ total + block.length then [block, OMITTED_MARKER]
    else block :: bfcBlocks rest (total + block.length)

/-- Model of `sep.join(parts)`. -/
def joinSep (sep : List Char) : List (List Char) → List Char
  | [] => []
  | [b] => b
  | b :: bs => b ++ sep ++ joinSep sep bs

/-- Function `build_file_context` (src/processor.py, lines 191-208).  The Python
`dict[str, str]` iterates in insertion order; it is modelled as an
association list in that order. -/
def build_file_context (files : List (List Char × List Char)) : List Char :=
  joinSep ("\n\n".toList) (bfcBlocks files 0)

-- ---------------------------------------------------------------------------
-- Directory tree renderer (src/processor.py, lines 215-244)
-- ---------------------------------------------------------------------------

/-- Lexicographic string order by code point, as Python `sorted` uses. -/
def strLe : List Char → List Char → Bool
  | [], _ => true
  | _ :: _, [] => false
  | a :: as_, b :: bs => if a = b then strLe as_ bs else decide (a < b)

/-- The sorted, filtered path list of `build_directory_tree`
(lines 220-223): blob entries that survive the skip classifier. -/
def directory_tree_paths (tree : List TreeEntry) : List (List Char) :=
  stableSortBy strLe
    ((tree.filter (fun item =>
        item.type == "blob".toList && !_should_skip item.path)).map
      (fun item => item.path))

/-- One rendered tree line `f"{indent}{glyph}{name}"`. -/
def renderTreeLine (path : List Char) : List Char :=
  let depth := path.count '/'
  (List.replicate depth ("  ".toList)).flatten ++
    (if 0 < depth then "└── ".toList else []) ++ pathName path

/-- Function `build_directory_tree` (src/processor.py, lines 215-244). -/
def build_directory_tree (tree : List TreeEntry) : List Char :=
  let paths := directory_tree_paths tree
  if paths.isEmpty then "(empty)".toList
  else
    let truncated := decide (TREE_MAX_ENTRIES < paths.length)
    let paths :=
      if TREE_MAX_ENTRIES < paths.length then paths.take TREE_MAX_ENTRIES
      else paths
    let lines := paths.map renderTreeLine
    let lines :=
      if truncated then
        lines ++ [("  ... [tree truncated at ".toList) ++
          (Nat.repr TREE_MAX_ENTRIES).toList ++ (" entries]".toList)]
      else lines
    joinSep ("\n".toList) lines

-- ---------------------------------------------------------------------------
-- Fetch pipeline control flow (src/github.py, lines 43-99)
-- ---------------------------------------------------------------------------

/-- Model of `_get_tree`: keeps only blob items (src/github.py, line 47). -/
def getTreeBlobs (raw : List TreeEntry) : List TreeEntry :=
  raw.filter (fun item => item.type == "blob".toList)

/-- The error flavour relevant here: Python `ValueError` with a message. -/
inductive PyError where
  | valueError (msg : List Char)
deriving DecidableEq

/-- The synchronous decision core of `fetch_repo_contents`
(src/github.py, lines 92-99): empty blob tree raises the
empty-repository `ValueError`; a non-empty tree whose selection is empty
raises the no-readable-files `ValueError`; otherwise the rendered
directory tree and the selected paths flow on to the fetch stage (which
is network I/O, outside this model). -/
def fetch_repo_contents_core (raw : List TreeEntry) :
    Except PyError (List Char × List (List Char)) :=
  let tree := getTreeBlobs raw
  if tree.isEmpty then
    .error (.valueError ("Repository appears to be empty.".toList))
  else
    let directory_tree := build_directory_tree tree
    let selected_paths := filter_and_prioritize tree
    if selected_paths.isEmpty then
      .error (.valueError ("No readable files found in repository.".toList))
    else .ok (directory_tree, selected_paths)

-- ---------------------------------------------------------------------------
-- Concrete inputs used by witnesses and counterexamples
-- ---------------------------------------------------------------------------

/-- Total length of a list of rendered blocks. -/
def sumLens (l : List (List Char)) : Nat := (l.map List.length).sum

/-- Concrete 70001-character path used by the C3 counterexample. -/
def fileC3 : List Char := List.replicate 70001 'p'

/-- Thirteen root-level tier-1 documentation files of size 6000 each:
the budget of 70000 is exhausted after the twelfth. -/
def treeC1 : List TreeEntry :=
  [⟨"README".toList, some 6000, "blob".toList⟩,
   ⟨"README.md".toList, some 6000, "blob".toList⟩,
   ⟨"README.rst".toList, some 6000, "blob".toList⟩,
   ⟨"README.txt".toList, some 6000, "blob".toList⟩,
   ⟨"ARCHITECTURE".toList, some 6000, "blob".toList⟩,
   ⟨"ARCHITECTURE.md".toList, some 6000, "blob".toList⟩,
   ⟨"OVERVIEW".toList, some 6000, "blob".toList⟩,
   ⟨"OVERVIEW.md".toList, some 6000, "blob".toList⟩,
   ⟨"CONTRIBUTING".toList, some 6000, "blob".toList⟩,
   ⟨"CONTRIBUTING.md".toList, some 6000, "blob".toList⟩,
   ⟨"CHANGELOG".toList, some 6000, "blob".toList⟩,
   ⟨"DESIGN".toList, some 6000, "blob".toList⟩,
   ⟨"OVERVIEW.rst".toList, some 6000, "blob".toList⟩]

/-- Twelve tier-1 files (one of size 3880, eleven of size 6000) leaving
a remaining budget of 120, followed in the sorted order by two tier-5
files of sizes 50 and 100 that were listed first in the tree. -/
def treeC2 : List TreeEntry :=
  [⟨"large.txt".toList, some 100, "blob".toList⟩,
   ⟨"small.txt".toList, some 50, "blob".toList⟩,
   ⟨"CHANGELOG".toList, some 3880, "blob".toList⟩,
   ⟨"README".toList, some 6000, "blob".toList⟩,
   ⟨"README.md".toList, some 6000, "blob".toList⟩,
   ⟨"README.rst".toList, some 6000, "blob".toList⟩,
   ⟨"README.txt".toList, some 6000, "blob".toList⟩,
   ⟨"ARCHITECTURE".toList, some 6000, "blob".toList⟩,
   ⟨"ARCHITECTURE.md".toList, some 6000, "blob".toList⟩,
   ⟨"OVERVIEW".toList, some 6000, "blob".toList⟩,
   ⟨"OVERVIEW.md".toList, some 6000, "blob".toList⟩,
   ⟨"CONTRIBUTING".toList, some 6000, "blob".toList⟩,
   ⟨"CONTRIBUTING.md".toList, some 6000, "blob".toList⟩,
   ⟨"DESIGN".toList, some 6000, "blob".toList⟩]

/-- Raw tree for the C8 witness: one blob next to one directory record. -/
def rawC8 : List TreeEntry :=
  [⟨"src".toList, none, "tree".toList⟩,
   ⟨"a.c".toList, some 3, "blob".toList⟩]

/-- Raw trees for the C9 witness: one whose only blob is skipped
(binary extension), and one with no blob entries at all. -/
def rawC9a : List TreeEntry := [⟨"x.png".toList, some 5, "blob".toList⟩]

def rawC9b : List TreeEntry := [⟨"docs".toList, none, "tree".toList⟩]

/-- Entry for the C10 witness: a blob record with no size field. -/
def entC10 : TreeEntry := ⟨"noext".toList, none, "blob".toList⟩

-- sanity checks mirroring the examples of spec section 8
example : _tier ("README.md".toList) = 1 := by decide
example : _tier ("package.json".toList) = 2 := by decide
example : _tier ("src/main.go".toList) = 3 := by decide
example : _tier (".github/workflows/ci.yml".toList) = 4 := by decide
example : _tier ("src/utils/helpers.py".toList) = 5 := by decide
example : _should_skip ("node_modules/a.js".toList) = true := by decide
example : _should_skip ("src/app.py".toList) = false := by decide
example : _should_skip ("a/dist/b.c".toList) = true := by decide
example : _should_skip ("x.EGG-INFO/a.py".toList) = false := by decide
example : _should_skip ("foo.egg-info/a.py".toList) = true := by decide
example : rfindChar '\n' ("ab\ncd".toList) = 2 := by decide
example : pathSuffix ("a/b.PY".toList) = ".PY".toList := by rfl
example : pathName ("a/b.py".toList) = "b.py".toList := by rfl

-- ---------------------------------------------------------------------------
-- Helper lemmas: stable insertion sort
-- ---------------------------------------------------------------------------

theorem mem_insertBy {le : α → α → Bool} {x a : α} {l : List α} :
    a ∈ insertBy le x l ↔ a = x ∨ a ∈ l := by
  induction l with
  | nil => simp [insertBy]
  | cons y ys ih =>
    simp only [insertBy]
    split
    · simp [List.mem_cons]
    · simp only [List.mem_cons, ih]
      tauto

theorem mem_stableSortBy {le : α → α → Bool} {a : α} {l : List α} :
    a ∈ stableSortBy le l ↔ a ∈ l := by
  induction l with
  | nil => simp [stableSortBy]
  | cons x l ih =>
    show a ∈ insertBy le x (stableSortBy le l) ↔ _
    rw [mem_insertBy]
    simp [List.mem_cons, ih]

theorem candLe_total (a b : Cand) : candLe a b = true ∨ candLe b a = true := by
  simp only [candLe, Bool.or_eq_true, Bool.and_eq_true, decide_eq_true_eq]
  omega

theorem candLe_trans {a b c : Cand} (h1 : candLe a b = true)
    (h2 : candLe b c = true) : candLe a c = true := by
  simp only [candLe, Bool.or_eq_true, Bool.and_eq_true, decide_eq_true_eq] at *
  omega

theorem pairwise_insertBy {x : Cand} {l : List Cand}
    (h : l.Pairwise (fun a b => candLe a b = true)) :
    (insertBy candLe x l).Pairwise (fun a b => candLe a b = true) := by
  induction l with
  | nil => simp [insertBy]
  | cons y ys ih =>
    rw [List.pairwise_cons] at h
    obtain ⟨hy, hys⟩ := h
    simp only [insertBy]
    split
    · rename_i hxy
      rw [List.pairwise_cons]
      refine ⟨?_, List.pairwise_cons.mpr ⟨hy, hys⟩⟩
      intro z hz
      rcases List.mem_cons.mp hz with rfl | hz
      · exact hxy
      · exact candLe_trans hxy (hy z hz)
    · rename_i hxy
      rw [List.pairwise_cons]
      refine ⟨?_, ih hys⟩
      intro z hz
      rcases mem_insertBy.mp hz with hzx | hz
      · rw [hzx]
        rcases candLe_total x y with htot | htot
        · exact absurd htot hxy
        · exact htot
      · exact hy z hz

theorem pairwise_stableSortBy (l : List Cand) :
    (stableSortBy candLe l).Pairwise (fun a b => candLe a b = true) := by
  induction l with
  | nil => exact List.Pairwise.nil
  | cons x l ih => exact pairwise_insertBy ih

theorem filter_insertBy_neg {q : Cand → Bool} {x : Cand} {l : List Cand}
    (hx : q x = false) :
    (insertBy candLe x l).filter q = l.filter q := by
  induction l with
  | nil => simp [insertBy, List.filter, hx]
  | cons y ys ih =>
    simp only [insertBy]
    split
    · simp [List.filter_cons, hx]
    · simp [List.filter_cons, ih]

theorem filter_insertBy_pos {q : Cand → Bool} {x : Cand} {l : List Cand}
    (hx : q x = true) (hq : ∀ y ∈ l, q y = true → candLe x y = true) :
    (insertBy candLe x l).filter q = x :: l.filter q := by
  induction l with
  | nil => simp [insertBy, List.filter, hx]
  | cons y ys ih =>
    simp only [insertBy]
    split
    · simp [List.filter_cons, hx]
    · rename_i hxy
      have hqy : q y = false := by
        rcases Bool.eq_false_or_eq_true (q y) with h | h
        · exact absurd (hq y (List.mem_cons_self y ys) h) hxy
        · exact h
      simp only [List.filter_cons, hqy, Bool.false_eq_true, if_false]
      exact ih (fun z hz hqz => hq z (List.mem_cons_of_mem y hz) hqz)

theorem stableSortBy_filter_key (l : List Cand) (t s : Nat) :
    (stableSortBy candLe l).filter
        (fun c => decide (c.2.2 = t) && decide (c.2.1 = s)) =
      l.filter (fun c => decide (c.2.2 = t) && decide (c.2.1 = s)) := by
  induction l with
  | nil => rfl
  | cons x l ih =>
    show (insertBy candLe x (stableSortBy candLe l)).filter _ = _
    rcases Bool.eq_false_or_eq_true
        ((fun c : Cand => decide (c.2.2 = t) && decide (c.2.1 = s)) x) with hx | hx
    · rw [filter_insertBy_pos hx ?_]
      · rw [ih]
        simp [List.filter_cons, hx]
      · intro y _ hqy
        simp only [Bool.and_eq_true, decide_eq_true_eq] at hx hqy
        simp only [candLe, Bool.or_eq_true, Bool.and_eq_true, decide_eq_true_eq]
        omega
    · rw [filter_insertBy_neg hx, ih]
      simp only [List.filter_cons, hx, Bool.false_eq_true, if_false]

-- ---------------------------------------------------------------------------
-- Helper lemmas: the selection loop
-- ---------------------------------------------------------------------------

theorem selectLoop_nonpos (cands : List Cand) (b : Int) (hb : b ≤ 0) :
    selectLoop cands b = [] := by
  cases cands with
  | nil => rfl
  | cons c rest =>
    obtain ⟨p, sz, t⟩ := c
    simp [selectLoop, hb]

theorem budgetAfter_nonpos (l : List Cand) (b : Int) (hb : b ≤ 0) :
    budgetAfter l b = b := by
  cases l with
  | nil => rfl
  | cons c rest =>
    obtain ⟨p, sz, t⟩ := c
    simp [budgetAfter, hb]

theorem budgetAfter_append (l1 l2 : List Cand) (b : Int) :
    budgetAfter (l1 ++ l2) b = budgetAfter l2 (budgetAfter l1 b) := by
  induction l1 generalizing b with
  | nil => rfl
  | cons c l1 ih =>
    obtain ⟨p, sz, t⟩ := c
    by_cases hb : b ≤ 0
    · rw [List.cons_append,
        show budgetAfter ((p, sz, t) :: (l1 ++ l2)) b = b from by
          simp [budgetAfter, hb],
        show budgetAfter ((p, sz, t) :: l1) b = b from by simp [budgetAfter, hb],
        budgetAfter_nonpos l2 b hb]
    · rw [List.cons_append]
      simp only [budgetAfter, if_neg hb]
      split
      · exact ih _
      · exact ih _

theorem selectLoop_reaches (l1 l2 : List Cand) (p : List Char) (sz t : Nat)
    (b : Int) (hb : 0 < budgetAfter l1 b)
    (hcond : min (sz : Int) (MAX_FILE_CHARS : Int) ≤ budgetAfter l1 b ∨ t ≤ 2) :
    p ∈ selectLoop (l1 ++ (p, sz, t) :: l2) b := by
  induction l1 generalizing b with
  | nil =>
    rw [show budgetAfter [] b = b from rfl] at hb hcond
    have hb' : ¬ b ≤ 0 := by omega
    rw [List.nil_append]
    simp only [selectLoop, if_neg hb']
    rw [if_pos hcond]
    exact List.mem_cons_self _ _
  | cons c l1 ih =>
    obtain ⟨q, qsz, qt⟩ := c
    have hbpos : ¬ b ≤ 0 := by
      intro h
      rw [budgetAfter_nonpos _ _ h] at hb
      omega
    have hstep : budgetAfter ((q, qsz, qt) :: l1) b =
        if min (qsz : Int) (MAX_FILE_CHARS : Int) ≤ b ∨ qt ≤ 2 then
          budgetAfter l1 (b - min (qsz : Int) (MAX_FILE_CHARS : Int))
        else budgetAfter l1 b := by
      simp [budgetAfter, hbpos]
    rw [List.cons_append]
    simp only [selectLoop, if_neg hbpos]
    split
    · rename_i hc
      apply List.mem_cons_of_mem
      apply ih
      · rw [hstep, if_pos hc] at hb
        exact hb
      · rw [hstep, if_pos hc] at hcond
        exact hcond
    · rename_i hc
      apply ih
      · rw [hstep, if_neg hc] at hb
        exact hb
      · rw [hstep, if_neg hc] at hcond
        exact hcond

theorem mem_selectLoop {cands : List Cand} {b : Int} {p : List Char}
    (h : p ∈ selectLoop cands b) : ∃ sz t, (p, sz, t) ∈ cands := by
  induction cands generalizing b with
  | nil => simp [selectLoop] at h
  | cons c rest ih =>
    obtain ⟨q, qsz, qt⟩ := c
    by_cases hb : b ≤ 0
    · rw [selectLoop_nonpos _ _ hb] at h
      simp at h
    · simp only [selectLoop, if_neg hb] at h
      split at h
      · rcases List.mem_cons.mp h with rfl | h'
        · exact ⟨qsz, qt, List.mem_cons_self _ _⟩
        · obtain ⟨sz, t, hm⟩ := ih h'
          exact ⟨sz, t, List.mem_cons_of_mem _ hm⟩
      · obtain ⟨sz, t, hm⟩ := ih h
        exact ⟨sz, t, List.mem_cons_of_mem _ hm⟩

theorem mem_candidates {tree : List TreeEntry} {c : Cand}
    (h : c ∈ candidates tree) :
    ∃ e, e ∈ tree ∧ e.path = c.1 ∧ _should_skip e.path = false := by
  rw [candidates, List.mem_filterMap] at h
  obtain ⟨e, he, heq⟩ := h
  by_cases hs : _should_skip e.path = true
  · rw [if_pos hs] at heq
    exact absurd heq (by simp)
  · rw [Bool.not_eq_true] at hs
    rw [if_neg (by simp [hs])] at heq
    have hc := Option.some.inj heq
    refine ⟨e, he, ?_, hs⟩
    rw [← hc]

-- ---------------------------------------------------------------------------
-- Helper lemmas: context renderer and truncation
-- ---------------------------------------------------------------------------

theorem bfcBlocks_spec (files : List (List Char × List Char)) (total : Nat)
    (h : total < CHAR_BUDGET) :
    (total + sumLens (files.map renderBlock) < CHAR_BUDGET ∧
       bfcBlocks files total = files.map renderBlock) ∨
    (∃ k, k < files.length ∧
       total + sumLens ((files.take k).map renderBlock) < CHAR_BUDGET ∧
       CHAR_BUDGET ≤ total + sumLens ((files.take (k + 1)).map renderBlock) ∧
       bfcBlocks files total =
         (files.take (k + 1)).map renderBlock ++ [OMITTED_MARKER]) := by
  induction files generalizing total with
  | nil =>
    left
    refine ⟨?_, rfl⟩
    simpa [sumLens] using h
  | cons pc rest ih =>
    by_cases hc : CHAR_BUDGET ≤ total + (renderBlock pc).length
    · right
      refine ⟨0, by simp, ?_, ?_, ?_⟩
      · simpa [sumLens] using h
      · simpa [sumLens] using hc
      · simp only [bfcBlocks, if_pos hc]
        simp
    · have hlt : total + (renderBlock pc).length < CHAR_BUDGET := by omega
      rcases ih (total + (renderBlock pc).length) hlt with
        ⟨h1, h2⟩ | ⟨k, hk, h1, h2, h3⟩
      · left
        constructor
        · simp only [List.map_cons, sumLens, List.sum_cons] at h1 ⊢
          omega
        · simp only [bfcBlocks, if_neg hc, List.map_cons]
          rw [h2]
      · right
        refine ⟨k + 1, by simp only [List.length_cons]; omega, ?_, ?_, ?_⟩
        · simp only [sumLens, List.take_succ_cons, List.map_cons,
            List.sum_cons] at h1 ⊢
          omega
        · simp only [sumLens, List.take_succ_cons, List.map_cons,
            List.sum_cons] at h2 ⊢
          omega
        · simp only [bfcBlocks, if_neg hc]
          rw [h3]
          simp [List.take_succ_cons]

theorem trunc_of_short (p c : List Char) (L : Nat) (h : c.length ≤ L) :
    truncate_file p c L = c := by
  simp only [truncate_file, if_pos h]

theorem truncate_file_long (p c : List Char) (L : Nat) (h : ¬ c.length ≤ L) :
    truncate_file p c L =
      (if 4 * (L : Int) < 5 * rfindChar '\n' (c.take L) then
          (c.take L).take (rfindChar '\n' (c.take L)).toNat
        else c.take L) ++
        truncNote
          ((if 4 * (L : Int) < 5 * rfindChar '\n' (c.take L) then
              (c.take L).take (rfindChar '\n' (c.take L)).toNat
            else c.take L).count '\n' + 1)
          (c.count '\n' + 1) := by
  simp only [truncate_file, if_neg h]

-- ---------------------------------------------------------------------------
-- Claims C4, C5, C6: truncate_file
-- ---------------------------------------------------------------------------

/-- C5: `truncate_file` returns its content unchanged when the content
fits within the limit; otherwise it returns a prefix of the content of
length at most the limit followed by the truncation annotation, so the
result's length is at most the limit plus the annotation's length and
no content beyond that prefix plus the annotation is ever added. -/
theorem C5_truncate_bounds (p c : List Char) (L : Nat) :
    (c.length ≤ L → truncate_file p c L = c) ∧
    (L < c.length → ∃ t rest, t ++ rest = c ∧ t.length ≤ L ∧
      truncate_file p c L =
        t ++ truncNote (t.count '\n' + 1) (c.count '\n' + 1) ∧
      (truncate_file p c L).length ≤
        L + (truncNote (t.count '\n' + 1) (c.count '\n' + 1)).length) := by
  constructor
  · exact fun h => trunc_of_short p c L h
  · intro hL
    have h : ¬ c.length ≤ L := by omega
    by_cases hnl : 4 * (L : Int) < 5 * rfindChar '\n' (c.take L)
    · refine ⟨(c.take L).take (rfindChar '\n' (c.take L)).toNat,
        c.drop (min (rfindChar '\n' (c.take L)).toNat L), ?_, ?_, ?_, ?_⟩
      · rw [List.take_take]
        exact List.take_append_drop _ c
      · rw [List.take_take, List.length_take]
        omega
      · rw [truncate_file_long p c L h, if_pos hnl]
      · rw [truncate_file_long p c L h, if_pos hnl, List.length_append]
        have hlen : ((c.take L).take (rfindChar '\n' (c.take L)).toNat).length ≤ L := by
          rw [List.take_take, List.length_take]
          omega
        omega
    · refine ⟨c.take L, c.drop L, List.take_append_drop L c, ?_, ?_, ?_⟩
      · rw [List.length_take]
        omega
      · rw [truncate_file_long p c L h, if_neg hnl]
      · rw [truncate_file_long p c L h, if_neg hnl, List.length_append,
          List.length_take]
        omega

/-- C5 witness: both branches of the bound at concrete inputs. -/
theorem C5_truncate_bounds_witness :
    truncate_file [] ("ab".toList) 5 = "ab".toList ∧
    (∃ t rest, t ++ rest = "abcdefghijk".toList ∧ t.length ≤ 10 ∧
      truncate_file [] ("abcdefghijk".toList) 10 =
        t ++ truncNote (t.count '\n' + 1) ("abcdefghijk".toList.count '\n' + 1) ∧
      (truncate_file [] ("abcdefghijk".toList) 10).length ≤
        10 + (truncNote (t.count '\n' + 1)
          ("abcdefghijk".toList.count '\n' + 1)).length) :=
  ⟨(C5_truncate_bounds [] ("ab".toList) 5).1 (by decide),
   (C5_truncate_bounds [] ("abcdefghijk".toList) 10).2 (by decide)⟩

/-- C4 (amended): truncation is idempotent whenever the first
truncation's result fits within the limit (in particular whenever the
content itself does); when the annotated result exceeds the limit a
second application truncates it further, so idempotence fails in
general. -/
theorem C4_truncate_idempotent_when_short (p c : List Char) (L : Nat)
    (h : (truncate_file p c L).length ≤ L) :
    truncate_file p (truncate_file p c L) L = truncate_file p c L :=
  trunc_of_short p _ L h

/-- C4 witness: limit 200, content of 207 characters with a newline at
index 161; the truncated result is 197 characters long, within the
limit, and re-truncating leaves it unchanged. -/
theorem C4_truncate_idempotent_when_short_witness :
    (truncate_file []
        (List.replicate 161 'a' ++ '\n' :: List.replicate 45 'b') 200).length ≤ 200 ∧
    truncate_file []
        (truncate_file [] (List.replicate 161 'a' ++ '\n' :: List.replicate 45 'b') 200)
        200 =
      truncate_file [] (List.replicate 161 'a' ++ '\n' :: List.replicate 45 'b') 200 :=
  ⟨by decide, C4_truncate_idempotent_when_short [] _ 200 (by decide)⟩

/-- C4 counterexample: for the 11-character newline-free content
"abcdefghijk" and limit 10, the first truncation yields 10 characters
plus a 36-character annotation (46 characters total, more than the
limit), and a second truncation changes the string, refuting
idempotence as claimed for every content and limit. -/
theorem C4_truncate_not_idempotent :
    truncate_file [] (truncate_file [] ("abcdefghijk".toList) 10) 10 ≠
      truncate_file [] ("abcdefghijk".toList) 10 := by decide

/-- C6 (amended): when the content exceeds the limit, `truncate_file`
cuts back to the last newline of the first-limit prefix exactly when
that newline lies strictly after 80 percent of the limit
(`last_newline > 0.8 * limit`); at or before the 80 percent mark —
including exactly at it — the hard cut at `limit` characters is kept. -/
theorem C6_newline_cut_strictly_after_80pct (p c : List Char) (L : Nat)
    (h : L < c.length) :
    (4 * (L : Int) < 5 * rfindChar '\n' (c.take L) →
       truncate_file p c L =
         (c.take L).take (rfindChar '\n' (c.take L)).toNat ++
           truncNote
             (((c.take L).take (rfindChar '\n' (c.take L)).toNat).count '\n' + 1)
             (c.count '\n' + 1)) ∧
    (5 * rfindChar '\n' (c.take L) ≤ 4 * (L : Int) →
       truncate_file p c L =
         c.take L ++ truncNote ((c.take L).count '\n' + 1) (c.count '\n' + 1)) := by
  have h' : ¬ c.length ≤ L := by omega
  constructor
  · intro hc
    rw [truncate_file_long p c L h', if_pos hc]
  · intro hc
    have hc' : ¬ 4 * (L : Int) < 5 * rfindChar '\n' (c.take L) := by omega
    rw [truncate_file_long p c L h', if_neg hc']

/-- C6 witness: content "ab\ncdefghijk" with limit 10 has its last
newline at index 2, well before 80 percent of the limit, so the hard
cut is kept. -/
theorem C6_newline_cut_witness :
    truncate_file [] ("ab\ncdefghijk".toList) 10 =
      ("ab\ncdefghijk".toList).take 10 ++
        truncNote ((("ab\ncdefghijk".toList).take 10).count '\n' + 1)
          (("ab\ncdefghijk".toList).count '\n' + 1) :=
  (C6_newline_cut_strictly_after_80pct [] ("ab\ncdefghijk".toList) 10
    (by decide)).2 (by decide)

/-- C6 counterexample: in "abcdefgh\nxy" with limit 10 the last newline
of the 10-character prefix sits at index 8, exactly 80 percent of the
limit; the claim (inclusive ≥) predicts a cut back to the newline, but
the code keeps the hard 10-character cut. -/
theorem C6_boundary_counterexample :
    rfindChar '\n' (("abcdefgh\nxy".toList).take 10) = 8 ∧
    truncate_file [] ("abcdefgh\nxy".toList) 10 =
      "abcdefgh\nx".toList ++ truncNote 2 2 ∧
    truncate_file [] ("abcdefgh\nxy".toList) 10 ≠
      "abcdefgh".toList ++ truncNote 1 2 := by decide

-- ---------------------------------------------------------------------------
-- Claim C3: build_file_context
-- ---------------------------------------------------------------------------

/-- C3 (amended): either every file is rendered and the total block
length stays below `CHAR_BUDGET`, or there is a first block whose
addition makes the running total reach `CHAR_BUDGET`, in which case that
block is kept, the fixed omission marker is appended, and no later file
contributes a block.  (The returned string itself may exceed
`CHAR_BUDGET`, since the check runs only after a block is appended and
labels, separators and the marker add further length.) -/
theorem C3_render_budget_stop (files : List (List Char × List Char)) :
    (sumLens (files.map renderBlock) < CHAR_BUDGET ∧
       bfcBlocks files 0 = files.map renderBlock ∧
       build_file_context files =
         joinSep ("\n\n".toList) (files.map renderBlock)) ∨
    (∃ k, k < files.length ∧
       sumLens ((files.take k).map renderBlock) < CHAR_BUDGET ∧
       CHAR_BUDGET ≤ sumLens ((files.take (k + 1)).map renderBlock) ∧
       bfcBlocks files 0 =
         (files.take (k + 1)).map renderBlock ++ [OMITTED_MARKER] ∧
       build_file_context files =
         joinSep ("\n\n".toList)
           ((files.take (k + 1)).map renderBlock ++ [OMITTED_MARKER])) := by
  rcases bfcBlocks_spec files 0 (by norm_num [CHAR_BUDGET]) with
    ⟨h1, h2⟩ | ⟨k, hk, h1, h2, h3⟩
  · left
    refine ⟨by simpa using h1, h2, ?_⟩
    rw [build_file_context, h2]
  · right
    refine ⟨k, hk, by simpa using h1, by simpa using h2, h3, ?_⟩
    rw [build_file_context, h3]

theorem fileC3_length : fileC3.length = 70001 :=
  List.length_replicate 70001 'p'

theorem fileC3_trunc : truncate_file fileC3 [] MAX_FILE_CHARS = [] :=
  trunc_of_short _ _ _ (by simp [MAX_FILE_CHARS])

/-- Length of one rendered block in terms of its parts (the two label
strings and the fence are 4, 5 and 4 characters long). -/
theorem renderBlock_length (pc : List Char × List Char) :
    (renderBlock pc).length =
      4 + (pc.1.length + (5 + ((truncate_file pc.1 pc.2 MAX_FILE_CHARS).length + 4))) := by
  rw [renderBlock]
  rw [List.length_append, List.length_append, List.length_append, List.length_append]
  rw [show ("### ".toList).length = 4 from rfl,
    show ("\n```\n".toList).length = 5 from rfl,
    show ("\n```".toList).length = 4 from rfl]
  omega

theorem renderBlock_fileC3_length :
    (renderBlock (fileC3, ([] : List Char))).length = 70014 := by
  rw [renderBlock_length]
  rw [show ((fileC3, ([] : List Char)).1) = fileC3 from rfl,
    show ((fileC3, ([] : List Char)).2) = ([] : List Char) from rfl]
  rw [fileC3_trunc, fileC3_length, List.length_nil]

theorem bfcBlocks_fileC3 : bfcBlocks [(fileC3, ([] : List Char))] 0 =
    [renderBlock (fileC3, ([] : List Char)), OMITTED_MARKER] := by
  simp only [bfcBlocks]
  rw [if_pos (show CHAR_BUDGET ≤
    0 + (renderBlock (fileC3, ([] : List Char))).length from by
      rw [renderBlock_fileC3_length]
      norm_num [CHAR_BUDGET])]

theorem joinSep_pair (sep a b : List Char) : joinSep sep [a, b] = a ++ sep ++ b := by
  simp [joinSep]

/-- C3 counterexample: a single file whose path is 70001 characters long
renders to a context of length 70068 > CHAR_BUDGET = 70000, refuting the
claim that the returned string never exceeds the budget. -/
theorem C3_output_exceeds_budget :
    CHAR_BUDGET < (build_file_context [(fileC3, [])]).length := by
  rw [build_file_context, bfcBlocks_fileC3, joinSep_pair]
  rw [List.length_append, List.length_append, renderBlock_fileC3_length]
  rw [show (OMITTED_MARKER).length = 52 from rfl,
    show (("\n\n".toList) : List Char).length = 2 from rfl]
  norm_num [CHAR_BUDGET]

-- ---------------------------------------------------------------------------
-- Claim C1: tier 1-2 inclusion vs the budget break
-- ---------------------------------------------------------------------------

/-- C1 (amended): the selection loop includes every candidate of tier at
most 2 that it actually reaches with positive remaining budget; but the
loop breaks as soon as the remaining budget is non-positive, before
looking at the current candidate's tier, so tier-1/2 candidates that
occur after the budget is exhausted are dropped. -/
theorem C1_tier12_included_until_budget_exhausted :
    (∀ (cands : List Cand) (b : Int), b ≤ 0 → selectLoop cands b = []) ∧
    (∀ (l1 l2 : List Cand) (p : List Char) (sz t : Nat) (b : Int),
       t ≤ 2 → 0 < budgetAfter l1 b →
       p ∈ selectLoop (l1 ++ (p, sz, t) :: l2) b) :=
  ⟨selectLoop_nonpos,
   fun l1 l2 p sz t b ht hb => selectLoop_reaches l1 l2 p sz t b hb (Or.inr ht)⟩

/-- C1 witness: the break at non-positive budget, and a tier-1 candidate
larger than the whole budget that is still included when reached first. -/
theorem C1_tier12_witness :
    ((-1 : Int) ≤ 0 ∧ selectLoop [("a".toList, 5, 1)] (-1) = []) ∧
    ((1 : Nat) ≤ 2 ∧ 0 < budgetAfter [] (CHAR_BUDGET : Int) ∧
      "README".toList ∈
        selectLoop ([] ++ ("README".toList, 99999, 1) :: []) (CHAR_BUDGET : Int)) :=
  ⟨⟨by norm_num, C1_tier12_included_until_budget_exhausted.1 _ _ (by norm_num)⟩,
   ⟨by norm_num, by decide,
    C1_tier12_included_until_budget_exhausted.2 [] [] _ 99999 1 _ (by norm_num)
      (by decide)⟩⟩

/-- C1 counterexample: "OVERVIEW.rst" is a non-skipped tier-1 candidate
of `treeC1`, yet it is absent from the selection, because the twelve
tier-1 files sorted before it drive the budget to -2000 and the loop
breaks without looking at its tier. -/
theorem C1_tier1_candidate_dropped :
    _should_skip ("OVERVIEW.rst".toList) = false ∧
    _tier ("OVERVIEW.rst".toList) = 1 ∧
    (⟨"OVERVIEW.rst".toList, some 6000, "blob".toList⟩ : TreeEntry) ∈ treeC1 ∧
    "OVERVIEW.rst".toList ∉ filter_and_prioritize treeC1 := by decide

-- ---------------------------------------------------------------------------
-- Claim C2: selection order
-- ---------------------------------------------------------------------------

/-- C2: the candidate list is considered in an order that is sorted by
(tier ascending, size ascending); the sort is stable (filtering the
sorted candidates to any exact (tier, size) key yields exactly the
original tree-ordered sublist); and in the concrete two-tier-5 scenario
with remaining budget 120, the size-50 candidate is selected and the
size-100 one is not. -/
theorem C2_selection_order :
    (∀ tree : List TreeEntry,
       (stableSortBy candLe (candidates tree)).Pairwise
         (fun a b => candLe a b = true)) ∧
    (∀ (tree : List TreeEntry) (t s : Nat),
       (stableSortBy candLe (candidates tree)).filter
           (fun c => decide (c.2.2 = t) && decide (c.2.1 = s)) =
         (candidates tree).filter
           (fun c => decide (c.2.2 = t) && decide (c.2.1 = s))) ∧
    (filter_and_prioritize treeC2 =
       ["CHANGELOG", "README", "README.md", "README.rst", "README.txt",
        "ARCHITECTURE", "ARCHITECTURE.md", "OVERVIEW", "OVERVIEW.md",
        "CONTRIBUTING", "CONTRIBUTING.md", "DESIGN",
        "small.txt"].map (fun s => s.toList) ∧
      "small.txt".toList ∈ filter_and_prioritize treeC2 ∧
      "large.txt".toList ∉ filter_and_prioritize treeC2) :=
  ⟨fun _ => pairwise_stableSortBy _,
   fun tree t s => stableSortBy_filter_key (candidates tree) t s,
   by decide⟩

-- ---------------------------------------------------------------------------
-- Claim C7: denylisted directory segments
-- ---------------------------------------------------------------------------

/-- C7 (amended): any path with a non-final segment that
case-insensitively equals a denylisted directory name is skipped, and
any path with a non-final segment that ends in ".egg-info" with that
exact casing is skipped; the ".egg-info" suffix test, however, is
case-sensitive (see the counterexample). -/
theorem C7_skip_dir_segments :
    (∀ (path part : List Char), part ∈ (pathParts path).dropLast →
       SKIP_DIRS.contains (lowerStr part) = true → _should_skip path = true) ∧
    (∀ (path part : List Char), part ∈ (pathParts path).dropLast →
       (".egg-info".toList).isSuffixOf part = true → _should_skip path = true) := by
  constructor
  · intro path part hmem hdir
    have hany : (pathParts path).dropLast.any
        (fun part => SKIP_DIRS.contains (lowerStr part) ||
          (".egg-info".toList).isSuffixOf part) = true :=
      List.any_eq_true.mpr ⟨part, hmem, by
        show (SKIP_DIRS.contains (lowerStr part) ||
          (".egg-info".toList).isSuffixOf part) = true
        rw [hdir]
        rfl⟩
    simp only [_should_skip]
    rw [hany]
    rfl
  · intro path part hmem hsuf
    have hany : (pathParts path).dropLast.any
        (fun part => SKIP_DIRS.contains (lowerStr part) ||
          (".egg-info".toList).isSuffixOf part) = true :=
      List.any_eq_true.mpr ⟨part, hmem, by
        show (SKIP_DIRS.contains (lowerStr part) ||
          (".egg-info".toList).isSuffixOf part) = true
        rw [hsuf]
        simp⟩
    simp only [_should_skip]
    rw [hany]
    rfl

/-- C7 witness: a lowercase denylisted directory and a lowercase
.egg-info directory both cause a skip. -/
theorem C7_skip_dir_segments_witness :
    _should_skip ("node_modules/x.js".toList) = true ∧
    _should_skip ("pkg.egg-info/y.py".toList) = true :=
  ⟨C7_skip_dir_segments.1 ("node_modules/x.js".toList) ("node_modules".toList)
      (by decide) (by decide),
   C7_skip_dir_segments.2 ("pkg.egg-info/y.py".toList) ("pkg.egg-info".toList)
      (by decide) (by decide)⟩

/-- C7 counterexample: "x.EGG-INFO" is a non-final segment that ends in
".egg-info" up to casing, but `_should_skip` returns false on the path,
because `part.endswith(".egg-info")` in the source is case-sensitive
(only the SKIP_DIRS membership test lowercases the segment). -/
theorem C7_uppercase_egg_info_not_skipped :
    ("x.EGG-INFO".toList) ∈ (pathParts ("x.EGG-INFO/a.py".toList)).dropLast ∧
    (".egg-info".toList).isSuffixOf (lowerStr ("x.EGG-INFO".toList)) = true ∧
    _should_skip ("x.EGG-INFO/a.py".toList) = false := by decide

-- ---------------------------------------------------------------------------
-- Claim C8: only blob entries
-- ---------------------------------------------------------------------------

/-- C8: in the fetch pipeline (where `_get_tree` keeps only blob items
before `filter_and_prioritize` and `build_directory_tree` filters on
the type itself), every selected path and every rendered tree path is
the path of some blob entry of the raw tree; no directory ("tree")
record contributes a path. -/
theorem C8_only_blob_entries (raw : List TreeEntry) (p : List Char) :
    (p ∈ filter_and_prioritize (getTreeBlobs raw) →
       ∃ e, e ∈ raw ∧ e.type = "blob".toList ∧ e.path = p) ∧
    (p ∈ directory_tree_paths raw →
       ∃ e, e ∈ raw ∧ e.type = "blob".toList ∧ e.path = p) := by
  constructor
  · intro hp
    rw [filter_and_prioritize] at hp
    obtain ⟨sz, t, hmem⟩ := mem_selectLoop hp
    have hmem' : (p, sz, t) ∈ candidates (getTreeBlobs raw) :=
      mem_stableSortBy.mp hmem
    obtain ⟨e, he, hpath, _⟩ := mem_candidates hmem'
    rw [getTreeBlobs, List.mem_filter] at he
    exact ⟨e, he.1, by simpa using he.2, hpath⟩
  · intro hp
    rw [directory_tree_paths] at hp
    have hp' := mem_stableSortBy.mp hp
    rw [List.mem_map] at hp'
    obtain ⟨e, he, hpath⟩ := hp'
    rw [List.mem_filter] at he
    refine ⟨e, he.1, ?_, hpath⟩
    have h2 := he.2
    simp only [Bool.and_eq_true, beq_iff_eq] at h2
    exact h2.1

/-- C8 witness: the selected path "a.c" of `rawC8` originates in a blob
entry. -/
theorem C8_only_blob_entries_witness :
    ("a.c".toList ∈ filter_and_prioritize (getTreeBlobs rawC8)) ∧
    (∃ e, e ∈ rawC8 ∧ e.type = "blob".toList ∧ e.path = "a.c".toList) :=
  ⟨by decide, (C8_only_blob_entries rawC8 ("a.c".toList)).1 (by decide)⟩

-- ---------------------------------------------------------------------------
-- Claim C9: distinct error conditions
-- ---------------------------------------------------------------------------

/-- C9: when the blob tree is non-empty but the selection is empty,
`fetch_repo_contents` raises the "No readable files found in
repository." ValueError, which differs from the "Repository appears to
be empty." ValueError raised when the tree has no blob entries at all. -/
theorem C9_distinct_error_conditions (raw : List TreeEntry) :
    (getTreeBlobs raw ≠ [] →
       filter_and_prioritize (getTreeBlobs raw) = [] →
       fetch_repo_contents_core raw =
         .error (.valueError ("No readable files found in repository.".toList))) ∧
    (getTreeBlobs raw = [] →
       fetch_repo_contents_core raw =
         .error (.valueError ("Repository appears to be empty.".toList))) ∧
    PyError.valueError ("No readable files found in repository.".toList) ≠
      PyError.valueError ("Repository appears to be empty.".toList) := by
  refine ⟨?_, ?_, by decide⟩
  · intro hne hsel
    simp only [fetch_repo_contents_core]
    rw [if_neg (by simpa [List.isEmpty_iff] using hne)]
    rw [if_pos (by rw [hsel]; rfl)]
  · intro he
    simp only [fetch_repo_contents_core]
    rw [if_pos (by rw [he]; rfl)]

/-- C9 witness: both error conditions produced at concrete inputs. -/
theorem C9_distinct_error_conditions_witness :
    fetch_repo_contents_core rawC9a =
      .error (.valueError ("No readable files found in repository.".toList)) ∧
    fetch_repo_contents_core rawC9b =
      .error (.valueError ("Repository appears to be empty.".toList)) :=
  ⟨(C9_distinct_error_conditions rawC9a).1 (by decide) (by decide),
   (C9_distinct_error_conditions rawC9b).2.1 (by decide)⟩

-- ---------------------------------------------------------------------------
-- Claim C10: entries with no size field
-- ---------------------------------------------------------------------------

/-- C10: a tree entry whose record has no size field is read via
`item.get("size", 0)` as size 0, so it enters the candidate list with
size 0 (hence allotment `min 0 MAX_FILE_CHARS = 0`); whenever the
selection loop reaches such a candidate with positive remaining budget
it is included regardless of its tier, and it leaves the running budget
unchanged. -/
theorem C10_missing_size_is_zero (e : TreeEntry) (hsz : e.size = none) :
    (∀ tree : List TreeEntry, e ∈ tree → _should_skip e.path = false →
       (e.path, 0, _tier e.path) ∈ candidates tree) ∧
    (∀ (l1 l2 : List Cand) (t : Nat) (b : Int), 0 < budgetAfter l1 b →
       e.path ∈ selectLoop (l1 ++ (e.path, 0, t) :: l2) b ∧
       budgetAfter (l1 ++ [(e.path, 0, t)]) b = budgetAfter l1 b) := by
  have hmin : min (((0 : Nat)) : Int) ((MAX_FILE_CHARS : Nat) : Int) = 0 := by
    norm_num [MAX_FILE_CHARS]
  constructor
  · intro tree hmem hskip
    rw [candidates, List.mem_filterMap]
    refine ⟨e, hmem, ?_⟩
    rw [if_neg (by simp [hskip]), hsz]
    rfl
  · intro l1 l2 t b hb
    constructor
    · exact selectLoop_reaches l1 l2 e.path 0 t b hb
        (Or.inl (by rw [hmin]; omega))
    · rw [budgetAfter_append]
      have hb' : ¬ budgetAfter l1 b ≤ 0 := by omega
      show budgetAfter [(e.path, 0, t)] (budgetAfter l1 b) = budgetAfter l1 b
      simp only [budgetAfter, hmin, if_neg hb']
      rw [if_pos (Or.inl (by omega : (0 : Int) ≤ budgetAfter l1 b))]
      show budgetAfter l1 b - 0 = budgetAfter l1 b
      omega

/-- C10 witness: the size-less entry becomes a size-0 candidate of its
singleton tree, and at budget 10 a tier-5 candidate of size 0 is
included without charging the budget. -/
theorem C10_missing_size_is_zero_witness :
    ((entC10.path, 0, _tier entC10.path) ∈ candidates [entC10]) ∧
    ((0 : Int) < budgetAfter [] 10 ∧
      entC10.path ∈ selectLoop ([] ++ (entC10.path, 0, 5) :: []) 10 ∧
      budgetAfter ([] ++ [(entC10.path, 0, 5)]) 10 = budgetAfter [] 10) :=
  ⟨(C10_missing_size_is_zero entC10 rfl).1 [entC10] (by decide) (by decide),
   ⟨by decide,
    ((C10_missing_size_is_zero entC10 rfl).2 [] [] 5 10 (by decide)).1,
    ((C10_missing_size_is_zero entC10 rfl).2 [] [] 5 10 (by decide)).2⟩⟩

